import Mathlib

/-!
Verification of the Zebra_Options scenario engine (`src/src/App.tsx`).

The engine is a handful of pure functions over JavaScript numbers:
`computeRow` (the spec's `deriveFigures`), the `totals` reduction (the
spec's `aggregate`), and `numberOr` (the spec's `parseNumberOr`, built on
the ECMAScript `parseFloat`).

JavaScript numbers are modelled by `JSNum`: a finite value is an exact
rational, and the non-finite values NaN, +Infinity and -Infinity are
explicit constructors.  This idealises IEEE-754 doubles in two deliberate
ways: finite arithmetic is exact (no rounding, no overflow to Infinity
from huge finite operands) and the signed zero -0 is identified with 0.
All claims under study concern exact real-number contracts, so this is
the intended reading of the spec.
-/

/-- A JavaScript number: a finite rational, an infinity, or NaN. -/
inductive JSNum where
  | fin (q : ℚ)
  | inf
  | ninf
  | nan
deriving DecidableEq, Repr

namespace JSNum

/-- JavaScript `+` on numbers (IEEE-754 addition, idealised). -/
def jadd : JSNum → JSNum → JSNum
  | .fin a, .fin b => .fin (a + b)
  | .fin _, .inf => .inf
  | .fin _, .ninf => .ninf
  | .inf, .fin _ => .inf
  | .ninf, .fin _ => .ninf
  | .inf, .inf => .inf
  | .ninf, .ninf => .ninf
  | .inf, .ninf => .nan
  | .ninf, .inf => .nan
  | _, _ => .nan

/-- JavaScript `-` on numbers. -/
def jsub : JSNum → JSNum → JSNum
  | .fin a, .fin b => .fin (a - b)
  | .fin _, .inf => .ninf
  | .fin _, .ninf => .inf
  | .inf, .fin _ => .inf
  | .ninf, .fin _ => .ninf
  | .inf, .ninf => .inf
  | .ninf, .inf => .ninf
  | .inf, .inf => .nan
  | .ninf, .ninf => .nan
  | _, _ => .nan

/-- JavaScript `*` on numbers. -/
def jmul : JSNum → JSNum → JSNum
  | .fin a, .fin b => .fin (a * b)
  | .fin a, .inf => if 0 < a then .inf else if a < 0 then .ninf else .nan
  | .inf, .fin a => if 0 < a then .inf else if a < 0 then .ninf else .nan
  | .fin a, .ninf => if 0 < a then .ninf else if a < 0 then .inf else .nan
  | .ninf, .fin a => if 0 < a then .ninf else if a < 0 then .inf else .nan
  | .inf, .inf => .inf
  | .inf, .ninf => .ninf
  | .ninf, .inf => .ninf
  | .ninf, .ninf => .inf
  | _, _ => .nan

/-- JavaScript `/` on numbers (with -0 identified with 0, a finite
quotient by zero takes the sign of the dividend). -/
def jdiv : JSNum → JSNum → JSNum
  | .fin a, .fin b =>
      if b = 0 then (if a = 0 then .nan else if 0 < a then .inf else .ninf)
      else .fin (a / b)
  | .fin _, .inf => .fin 0
  | .fin _, .ninf => .fin 0
  | .inf, .fin b => if b < 0 then .ninf else .inf
  | .ninf, .fin b => if b < 0 then .inf else .ninf
  | _, _ => .nan

/-- JavaScript `>` on numbers: any comparison with NaN is false. -/
def jgt : JSNum → JSNum → Bool
  | .fin a, .fin b => decide (b < a)
  | .fin _, .inf => false
  | .fin _, .ninf => true
  | .inf, .fin _ => true
  | .ninf, .fin _ => false
  | .inf, .ninf => true
  | _, _ => false

/-- JavaScript `Number.isFinite`. -/
def isFinite : JSNum → Bool
  | .fin _ => true
  | _ => false

end JSNum

open JSNum

/-- The record returned by `computeRow` (the spec's `DerivedFigures`). -/
structure Figures where
  plusPrice : JSNum
  minusPrice : JSNum
  curValue : JSNum
  plusValue : JSNum
  minusValue : JSNum
  unrealNow : JSNum
  realizedPlus : JSNum
  realizedMinus : JSNum
  breakevenStock : JSNum
deriving DecidableEq, Repr

/-- Option type: `"C" | "P"` in the source; the spec's {Call, Put}. -/
inductive OptType where
  | C
  | P
deriving DecidableEq, Repr

/-- `computeRow` from `src/src/App.tsx` lines 33-53 (the spec's
`deriveFigures`).  Each line mirrors a line of the source; `NaN` results
become `JSNum.nan`. -/
def computeRow (entryPrice currentPrice contracts strike : JSNum)
    (type : OptType) (pct : JSNum) : Figures :=
  let m : JSNum := .fin 100
  let p := jdiv pct (.fin 100)
  let plusPrice := if jgt currentPrice (.fin 0) then jmul currentPrice (jadd (.fin 1) p) else .nan
  let minusPrice := if jgt currentPrice (.fin 0) then jmul currentPrice (jsub (.fin 1) p) else .nan
  let curValue := if jgt currentPrice (.fin 0) && jgt contracts (.fin 0) then jmul (jmul currentPrice contracts) m else .nan
  let plusValue := if isFinite plusPrice && jgt contracts (.fin 0) then jmul (jmul plusPrice contracts) m else .nan
  let minusValue := if isFinite minusPrice && jgt contracts (.fin 0) then jmul (jmul minusPrice contracts) m else .nan
  let unrealNow := if isFinite currentPrice then jmul (jmul (jsub currentPrice entryPrice) contracts) m else .nan
  let realizedPlus := if isFinite plusPrice then jmul (jmul (jsub plusPrice entryPrice) contracts) m else .nan
  let realizedMinus := if isFinite minusPrice then jmul (jmul (jsub minusPrice entryPrice) contracts) m else .nan
  let breakevenStock := if type = OptType.C then jadd strike entryPrice else .nan
  { plusPrice := plusPrice, minusPrice := minusPrice, curValue := curValue,
    plusValue := plusValue, minusValue := minusValue, unrealNow := unrealNow,
    realizedPlus := realizedPlus, realizedMinus := realizedMinus,
    breakevenStock := breakevenStock }

/-- The nine output fields of a `Figures`, in source order. -/
def fieldsOf (f : Figures) : List JSNum :=
  [f.plusPrice, f.minusPrice, f.curValue, f.plusValue, f.minusValue,
   f.unrealNow, f.realizedPlus, f.realizedMinus, f.breakevenStock]

/-- The whitespace the ECMAScript `parseFloat` trims before the number:
`WhiteSpace` (TAB, VT, FF, SP, NBSP U+00A0, ZWNBSP U+FEFF and the Unicode
Zs category: U+1680, U+2000-U+200A, U+202F, U+205F, U+3000) together with
`LineTerminator` (LF, CR, LS U+2028, PS U+2029). -/
def jsWhitespace (c : Char) : Bool :=
  c = ' ' || c = '\t' || c = '\n' || c = '\r' || c = '\x0b' || c = '\x0c' ||
  c = '\u00A0' || c = '\uFEFF' || c = '\u1680' ||
  ('\u2000' ≤ c && c ≤ '\u200A') ||
  c = '\u2028' || c = '\u2029' || c = '\u202F' || c = '\u205F' || c = '\u3000'

/-- The longest run of decimal digits at the head of the list, and what
follows it. -/
def spanDigits : List Char → List Char × List Char
  | [] => ([], [])
  | c :: cs =>
    if c.isDigit then
      let (d, r) := spanDigits cs
      (c :: d, r)
    else ([], c :: cs)

/-- The number a run of decimal digits denotes. -/
def digitsToNat (ds : List Char) : ℕ :=
  ds.foldl (fun a c => 10 * a + (c.toNat - 48)) 0

/-- The optional leading sign: the sign's value and the input after it. -/
def splitSign : List Char → ℚ × List Char
  | [] => (1, [])
  | c :: r => if c = '+' then (1, r) else if c = '-' then (-1, r) else (1, c :: r)

/-- The optional sign of an exponent, as an integer. -/
def splitExpSign : List Char → ℤ × List Char
  | [] => (1, [])
  | c :: r => if c = '+' then (1, r) else if c = '-' then (-1, r) else (1, c :: r)

/-- The fractional part: a decimal point followed by digits (possibly
none), or nothing. -/
def fracPart : List Char → List Char × List Char
  | [] => ([], [])
  | c :: r => if c = '.' then spanDigits r else ([], c :: r)

/-- The longest sign-free decimal significand at the head of the input —
digits with at most one decimal point, at least one digit in all: its
value and the input after it, or `none` when no digit is present. -/
def decSignificand (cs : List Char) : Option (ℚ × List Char) :=
  let ip := (spanDigits cs).1
  let r1 := (spanDigits cs).2
  let fp := (fracPart r1).1
  let r2 := (fracPart r1).2
  if ip.isEmpty && fp.isEmpty then none
  else some ((digitsToNat ip : ℚ) + (digitsToNat fp : ℚ) / (10 : ℚ) ^ fp.length, r2)

/-- The exponent part of a `StrDecimalLiteral` (`e`/`E`, an optional sign,
digits): the scale factor it denotes and the input after it.  A lone `e`
with no digits is not part of the literal, so nothing is consumed. -/
def parseExpPart : List Char → ℚ × List Char
  | [] => (1, [])
  | c :: rest =>
    if c = 'e' || c = 'E' then
      let sgn := (splitExpSign rest).1
      let rest2 := (splitExpSign rest).2
      let ds := (spanDigits rest2).1
      let rest3 := (spanDigits rest2).2
      if ds.isEmpty then (1, c :: rest)
      else ((10 : ℚ) ^ (sgn * (digitsToNat ds : ℤ)), rest3)
    else (1, c :: rest)

/-- The unsigned decimal literal: a significand then an optional exponent
part. -/
def parseUnsigned (cs : List Char) : Option (ℚ × List Char) :=
  match decSignificand cs with
  | none => none
  | some mr => some (mr.1 * (parseExpPart mr.2).1, (parseExpPart mr.2).2)

/-- The signed literal after the whitespace: an optional sign, then either
the `Infinity` literal or a decimal literal; NaN when neither is there. -/
def parseSigned (cs : List Char) : JSNum :=
  let sgn := (splitSign cs).1
  let rest := (splitSign cs).2
  if rest.take 8 = "Infinity".data then
    (if sgn = 1 then .inf else .ninf)
  else
    match parseUnsigned rest with
    | some qr => .fin (sgn * qr.1)
    | none => .nan

/-- The ECMAScript `parseFloat` the source calls at App.tsx line 28: skip
leading whitespace, read the longest `StrDecimalLiteral` prefix, NaN when
there is none. -/
def parseFloat (s : String) : JSNum :=
  parseSigned (s.data.dropWhile jsWhitespace)

/-- A raw value reaching `numberOr`: the source types the argument
`unknown` and passes strings or numbers (any other runtime value coerces
like a non-finite number and takes the fallback, so these two cases are
the ones with behaviour of their own). -/
inductive RawVal where
  | str (s : String)
  | num (n : JSNum)
deriving DecidableEq, Repr

/-- `numberOr` from App.tsx lines 27-30 (the spec's `parseNumberOr`): parse
a string with `parseFloat`, keep a number as it is, and fall back when the
result is not finite.  The source gives `fallback` the default 0; the
model passes it explicitly. -/
def numberOr (v : RawVal) (fallback : JSNum) : JSNum :=
  let n := match v with
    | .str s => parseFloat s
    | .num x => x
  if isFinite n then n else fallback

/-- The accumulator of the `reduce` at App.tsx lines 221-232 (the spec's
`Totals`): the six summed fields. -/
structure Totals where
  curValue : JSNum
  unrealNow : JSNum
  plusValue : JSNum
  minusValue : JSNum
  realizedPlus : JSNum
  realizedMinus : JSNum
deriving DecidableEq, Repr

/-- One step of the `reduce` at App.tsx lines 221-232: each total grows by
`numberOr(field, 0)` of the row's derived figure. -/
def aggStep (acc : Totals) (r : Figures) : Totals :=
  { curValue := jadd acc.curValue (numberOr (.num r.curValue) (.fin 0)),
    unrealNow := jadd acc.unrealNow (numberOr (.num r.unrealNow) (.fin 0)),
    plusValue := jadd acc.plusValue (numberOr (.num r.plusValue) (.fin 0)),
    minusValue := jadd acc.minusValue (numberOr (.num r.minusValue) (.fin 0)),
    realizedPlus := jadd acc.realizedPlus (numberOr (.num r.realizedPlus) (.fin 0)),
    realizedMinus := jadd acc.realizedMinus (numberOr (.num r.realizedMinus) (.fin 0)) }

/-- The initial accumulator of that `reduce`: every total 0. -/
def initTotals : Totals :=
  { curValue := .fin 0, unrealNow := .fin 0, plusValue := .fin 0,
    minusValue := .fin 0, realizedPlus := .fin 0, realizedMinus := .fin 0 }

/-- The `reduce` itself (the spec's `aggregate`) over the rows' derived
figures. -/
def aggregate (rows : List Figures) : Totals :=
  rows.foldl aggStep initTotals

/-- The finite rational a value contributes through `numberOr (·, 0)`:
its own value when finite, otherwise 0. -/
def finPart : JSNum → ℚ
  | .fin q => q
  | _ => 0

/-- All six summed fields of a row's figures are the NaN sentinel. -/
def sumFieldsUndef (f : Figures) : Prop :=
  f.curValue = .nan ∧ f.unrealNow = .nan ∧ f.plusValue = .nan ∧
    f.minusValue = .nan ∧ f.realizedPlus = .nan ∧ f.realizedMinus = .nan

instance (f : Figures) : Decidable (sumFieldsUndef f) := by
  unfold sumFieldsUndef
  infer_instance

/-- A row of figures with every field NaN, as a whole-row undefined
sample. -/
def nanFigures : Figures :=
  { plusPrice := .nan, minusPrice := .nan, curValue := .nan, plusValue := .nan,
    minusValue := .nan, unrealNow := .nan, realizedPlus := .nan,
    realizedMinus := .nan, breakevenStock := .nan }

/-- A sample row of finite figures, for concrete instances. -/
def sampleFigA : Figures :=
  { plusPrice := .fin 2, minusPrice := .fin 1, curValue := .fin 300,
    plusValue := .fin 400, minusValue := .fin 200, unrealNow := .fin 50,
    realizedPlus := .fin 90, realizedMinus := .fin (-10), breakevenStock := .fin 16 }

/-- A second sample row mixing finite and NaN figures. -/
def sampleFigB : Figures :=
  { plusPrice := .nan, minusPrice := .nan, curValue := .nan, plusValue := .nan,
    minusValue := .nan, unrealNow := .fin (-100), realizedPlus := .nan,
    realizedMinus := .nan, breakevenStock := .fin 7 }

/-- Modelled from the claim's words, for comparison with the code's
parser: a decimal number read from the head of the text accepting an
optional leading sign, digits and at most one decimal point, taking the
longest valid numeric prefix; NaN when no digit is found.  (This is the
grammar claim C6 describes; the code's `parseFloat` accepts more.) -/
def specParseNumber (s : String) : JSNum :=
  let sgn := (splitSign s.data).1
  let rest := (splitSign s.data).2
  match decSignificand rest with
  | some qr => .fin (sgn * qr.1)
  | none => .nan

/-- Normal form of `computeRow` on finite inputs: every branch of the
source, with the JavaScript guards resolved to their rational meaning. -/
theorem computeRow_fin (e c n k s : ℚ) (t : OptType) :
    computeRow (.fin e) (.fin c) (.fin n) (.fin k) t (.fin s) =
      { plusPrice := if 0 < c then .fin (c * (1 + s / 100)) else .nan,
        minusPrice := if 0 < c then .fin (c * (1 - s / 100)) else .nan,
        curValue := if 0 < c ∧ 0 < n then .fin (c * n * 100) else .nan,
        plusValue := if 0 < c ∧ 0 < n then .fin (c * (1 + s / 100) * n * 100) else .nan,
        minusValue := if 0 < c ∧ 0 < n then .fin (c * (1 - s / 100) * n * 100) else .nan,
        unrealNow := .fin ((c - e) * n * 100),
        realizedPlus := if 0 < c then .fin ((c * (1 + s / 100) - e) * n * 100) else .nan,
        realizedMinus := if 0 < c then .fin ((c * (1 - s / 100) - e) * n * 100) else .nan,
        breakevenStock := if t = .C then .fin (k + e) else .nan } := by
  have h100 : ¬((100 : ℚ) = 0) := by norm_num
  by_cases hc : 0 < c <;> by_cases hn : 0 < n <;>
    simp [computeRow, jgt, jadd, jsub, jmul, jdiv, isFinite, hc, hn, h100]

theorem computeRow_plusPrice (e c n k s : ℚ) (t : OptType) :
    (computeRow (.fin e) (.fin c) (.fin n) (.fin k) t (.fin s)).plusPrice
      = if 0 < c then .fin (c * (1 + s / 100)) else .nan := by
  rw [computeRow_fin]

theorem computeRow_minusPrice (e c n k s : ℚ) (t : OptType) :
    (computeRow (.fin e) (.fin c) (.fin n) (.fin k) t (.fin s)).minusPrice
      = if 0 < c then .fin (c * (1 - s / 100)) else .nan := by
  rw [computeRow_fin]

theorem computeRow_curValue (e c n k s : ℚ) (t : OptType) :
    (computeRow (.fin e) (.fin c) (.fin n) (.fin k) t (.fin s)).curValue
      = if 0 < c ∧ 0 < n then .fin (c * n * 100) else .nan := by
  rw [computeRow_fin]

theorem computeRow_plusValue (e c n k s : ℚ) (t : OptType) :
    (computeRow (.fin e) (.fin c) (.fin n) (.fin k) t (.fin s)).plusValue
      = if 0 < c ∧ 0 < n then .fin (c * (1 + s / 100) * n * 100) else .nan := by
  rw [computeRow_fin]

theorem computeRow_minusValue (e c n k s : ℚ) (t : OptType) :
    (computeRow (.fin e) (.fin c) (.fin n) (.fin k) t (.fin s)).minusValue
      = if 0 < c ∧ 0 < n then .fin (c * (1 - s / 100) * n * 100) else .nan := by
  rw [computeRow_fin]

theorem computeRow_unrealNow (e c n k s : ℚ) (t : OptType) :
    (computeRow (.fin e) (.fin c) (.fin n) (.fin k) t (.fin s)).unrealNow
      = .fin ((c - e) * n * 100) := by
  rw [computeRow_fin]

theorem computeRow_realizedPlus (e c n k s : ℚ) (t : OptType) :
    (computeRow (.fin e) (.fin c) (.fin n) (.fin k) t (.fin s)).realizedPlus
      = if 0 < c then .fin ((c * (1 + s / 100) - e) * n * 100) else .nan := by
  rw [computeRow_fin]

theorem computeRow_realizedMinus (e c n k s : ℚ) (t : OptType) :
    (computeRow (.fin e) (.fin c) (.fin n) (.fin k) t (.fin s)).realizedMinus
      = if 0 < c then .fin ((c * (1 - s / 100) - e) * n * 100) else .nan := by
  rw [computeRow_fin]

theorem computeRow_breakevenStock (e c n k s : ℚ) (t : OptType) :
    (computeRow (.fin e) (.fin c) (.fin n) (.fin k) t (.fin s)).breakevenStock
      = if t = .C then .fin (k + e) else .nan := by
  rw [computeRow_fin]

/-- The source's own smoke test (App.tsx lines 56-61), exactly:
`computeRow(1.0, 1.72, 2, 15, "C", 15)` gives plusPrice 1.978, minusPrice
1.462, curValue 344. -/
theorem computeRow_smoke :
    computeRow (.fin 1) (.fin (172/100)) (.fin 2) (.fin 15) .C (.fin 15) =
      { plusPrice := .fin (1978/1000), minusPrice := .fin (1462/1000),
        curValue := .fin 344, plusValue := .fin (3956/10),
        minusValue := .fin (2924/10), unrealNow := .fin 144,
        realizedPlus := .fin (1956/10), realizedMinus := .fin (924/10),
        breakevenStock := .fin 16 } := by
  rw [computeRow_fin]
  norm_num

/-- **C1.** For every finite entryPrice, currentPrice, contractCount,
strikePrice, scenarioPct and every optionType, `computeRow` (the spec's
`deriveFigures`) returns plusPrice = currentPrice × (1 + scenarioPct/100)
and minusPrice = currentPrice × (1 − scenarioPct/100) when currentPrice >
0, and the NaN sentinel for both fields when currentPrice ≤ 0. -/
theorem C1_plus_minus_price (e c n k s : ℚ) (t : OptType) :
    (0 < c →
      (computeRow (.fin e) (.fin c) (.fin n) (.fin k) t (.fin s)).plusPrice
          = .fin (c * (1 + s / 100)) ∧
      (computeRow (.fin e) (.fin c) (.fin n) (.fin k) t (.fin s)).minusPrice
          = .fin (c * (1 - s / 100))) ∧
    (c ≤ 0 →
      (computeRow (.fin e) (.fin c) (.fin n) (.fin k) t (.fin s)).plusPrice = .nan ∧
      (computeRow (.fin e) (.fin c) (.fin n) (.fin k) t (.fin s)).minusPrice = .nan) := by
  constructor
  · intro hc
    rw [computeRow_plusPrice, computeRow_minusPrice, if_pos hc, if_pos hc]
    exact ⟨rfl, rfl⟩
  · intro hc
    rw [computeRow_plusPrice, computeRow_minusPrice,
      if_neg (not_lt.mpr hc), if_neg (not_lt.mpr hc)]
    exact ⟨rfl, rfl⟩

/-- Witness for C1 at entry 1, current 2, contracts 3, strike 4, pct 50. -/
theorem C1_plus_minus_price_witness :
    ((0:ℚ) < 2 →
      (computeRow (.fin 1) (.fin 2) (.fin 3) (.fin 4) .C (.fin 50)).plusPrice
          = .fin (2 * (1 + 50 / 100)) ∧
      (computeRow (.fin 1) (.fin 2) (.fin 3) (.fin 4) .C (.fin 50)).minusPrice
          = .fin (2 * (1 - 50 / 100))) ∧
    ((2:ℚ) ≤ 0 →
      (computeRow (.fin 1) (.fin 2) (.fin 3) (.fin 4) .C (.fin 50)).plusPrice = .nan ∧
      (computeRow (.fin 1) (.fin 2) (.fin 3) (.fin 4) .C (.fin 50)).minusPrice = .nan) :=
  C1_plus_minus_price 1 2 3 4 50 .C

/-- **C2.** For every finite input: curValue = currentPrice × contractCount
× 100 exactly when currentPrice > 0 and contractCount > 0 (else NaN);
plusValue / minusValue = plusPrice / minusPrice × contractCount × 100
exactly when that price is defined and contractCount > 0 (else NaN). -/
theorem C2_values (e c n k s : ℚ) (t : OptType) :
    (0 < c ∧ 0 < n →
      (computeRow (.fin e) (.fin c) (.fin n) (.fin k) t (.fin s)).curValue
          = .fin (c * n * 100)) ∧
    (¬(0 < c ∧ 0 < n) →
      (computeRow (.fin e) (.fin c) (.fin n) (.fin k) t (.fin s)).curValue = .nan) ∧
    (∀ q : ℚ,
      (computeRow (.fin e) (.fin c) (.fin n) (.fin k) t (.fin s)).plusPrice = .fin q →
      0 < n →
      (computeRow (.fin e) (.fin c) (.fin n) (.fin k) t (.fin s)).plusValue
          = .fin (q * n * 100)) ∧
    ((computeRow (.fin e) (.fin c) (.fin n) (.fin k) t (.fin s)).plusPrice = .nan ∨ ¬0 < n →
      (computeRow (.fin e) (.fin c) (.fin n) (.fin k) t (.fin s)).plusValue = .nan) ∧
    (∀ q : ℚ,
      (computeRow (.fin e) (.fin c) (.fin n) (.fin k) t (.fin s)).minusPrice = .fin q →
      0 < n →
      (computeRow (.fin e) (.fin c) (.fin n) (.fin k) t (.fin s)).minusValue
          = .fin (q * n * 100)) ∧
    ((computeRow (.fin e) (.fin c) (.fin n) (.fin k) t (.fin s)).minusPrice = .nan ∨ ¬0 < n →
      (computeRow (.fin e) (.fin c) (.fin n) (.fin k) t (.fin s)).minusValue = .nan) := by
  refine ⟨fun h => ?_, fun h => ?_, ?_, ?_, ?_, ?_⟩
  · rw [computeRow_curValue, if_pos h]
  · rw [computeRow_curValue, if_neg h]
  · intro q hq hn
    by_cases hc : 0 < c
    · rw [computeRow_plusPrice, if_pos hc] at hq
      injection hq with hq'
      rw [computeRow_plusValue, if_pos ⟨hc, hn⟩, hq']
    · rw [computeRow_plusPrice, if_neg hc] at hq
      exact JSNum.noConfusion hq
  · intro h
    by_cases hc : 0 < c
    · rcases h with hq | hn
      · rw [computeRow_plusPrice, if_pos hc] at hq
        exact JSNum.noConfusion hq
      · rw [computeRow_plusValue, if_neg (fun hcn => hn hcn.2)]
    · rw [computeRow_plusValue, if_neg (fun hcn => hc hcn.1)]
  · intro q hq hn
    by_cases hc : 0 < c
    · rw [computeRow_minusPrice, if_pos hc] at hq
      injection hq with hq'
      rw [computeRow_minusValue, if_pos ⟨hc, hn⟩, hq']
    · rw [computeRow_minusPrice, if_neg hc] at hq
      exact JSNum.noConfusion hq
  · intro h
    by_cases hc : 0 < c
    · rcases h with hq | hn
      · rw [computeRow_minusPrice, if_pos hc] at hq
        exact JSNum.noConfusion hq
      · rw [computeRow_minusValue, if_neg (fun hcn => hn hcn.2)]
    · rw [computeRow_minusValue, if_neg (fun hcn => hc hcn.1)]

/-- Witness for C2 at entry 1, current 2, contracts 3, strike 4, pct 50:
projects the defined-plusValue clause at the concrete plusPrice. -/
theorem C2_values_witness :
    (computeRow (.fin 1) (.fin 2) (.fin 3) (.fin 4) .C (.fin 50)).plusValue
        = .fin (2 * (1 + 50 / 100) * 3 * 100) :=
  (C2_values 1 2 3 4 50 .C).2.2.1 (2 * (1 + 50 / 100))
    (by rw [computeRow_plusPrice, if_pos (by norm_num : (0:ℚ) < 2)]) (by norm_num)

/-- **C3.** For every finite input — currentPrice zero or negative
included — unrealNow is the defined value (currentPrice − entryPrice) ×
contractCount × 100, even where curValue is NaN because currentPrice ≤ 0. -/
theorem C3_unrealized_now (e c n k s : ℚ) (t : OptType) :
    (computeRow (.fin e) (.fin c) (.fin n) (.fin k) t (.fin s)).unrealNow
        = .fin ((c - e) * n * 100) ∧
    (c ≤ 0 →
      (computeRow (.fin e) (.fin c) (.fin n) (.fin k) t (.fin s)).curValue = .nan) := by
  rw [computeRow_fin]
  exact ⟨rfl, fun hc => by simp [not_lt.mpr hc]⟩

/-- Witness for C3 at currentPrice 0 (not > 0): unrealNow is defined,
curValue is NaN. -/
theorem C3_unrealized_now_witness :
    (computeRow (.fin 1) (.fin 0) (.fin 5) (.fin 4) .C (.fin 15)).unrealNow
        = .fin ((0 - 1) * 5 * 100) ∧
    (computeRow (.fin 1) (.fin 0) (.fin 5) (.fin 4) .C (.fin 15)).curValue = .nan :=
  ⟨(C3_unrealized_now 1 0 5 4 15 .C).1, (C3_unrealized_now 1 0 5 4 15 .C).2 (le_refl 0)⟩

/-- **C4.** realizedPlus / realizedMinus = (price − entryPrice) ×
contractCount × 100 whenever the corresponding scenario price is defined
(NaN otherwise), with no requirement contractCount > 0; with contractCount
= 0 and currentPrice > 0, realizedPlus, realizedMinus and unrealNow are
each 0 while curValue, plusValue, minusValue are NaN. -/
theorem C4_realized (e c n k s : ℚ) (t : OptType) :
    (∀ q : ℚ,
      (computeRow (.fin e) (.fin c) (.fin n) (.fin k) t (.fin s)).plusPrice = .fin q →
      (computeRow (.fin e) (.fin c) (.fin n) (.fin k) t (.fin s)).realizedPlus
          = .fin ((q - e) * n * 100)) ∧
    ((computeRow (.fin e) (.fin c) (.fin n) (.fin k) t (.fin s)).plusPrice = .nan →
      (computeRow (.fin e) (.fin c) (.fin n) (.fin k) t (.fin s)).realizedPlus = .nan) ∧
    (∀ q : ℚ,
      (computeRow (.fin e) (.fin c) (.fin n) (.fin k) t (.fin s)).minusPrice = .fin q →
      (computeRow (.fin e) (.fin c) (.fin n) (.fin k) t (.fin s)).realizedMinus
          = .fin ((q - e) * n * 100)) ∧
    ((computeRow (.fin e) (.fin c) (.fin n) (.fin k) t (.fin s)).minusPrice = .nan →
      (computeRow (.fin e) (.fin c) (.fin n) (.fin k) t (.fin s)).realizedMinus = .nan) ∧
    (n = 0 → 0 < c →
      (computeRow (.fin e) (.fin c) (.fin n) (.fin k) t (.fin s)).realizedPlus = .fin 0 ∧
      (computeRow (.fin e) (.fin c) (.fin n) (.fin k) t (.fin s)).realizedMinus = .fin 0 ∧
      (computeRow (.fin e) (.fin c) (.fin n) (.fin k) t (.fin s)).unrealNow = .fin 0 ∧
      (computeRow (.fin e) (.fin c) (.fin n) (.fin k) t (.fin s)).curValue = .nan ∧
      (computeRow (.fin e) (.fin c) (.fin n) (.fin k) t (.fin s)).plusValue = .nan ∧
      (computeRow (.fin e) (.fin c) (.fin n) (.fin k) t (.fin s)).minusValue = .nan) := by
  refine ⟨?_, ?_, ?_, ?_, ?_⟩
  · intro q hq
    by_cases hc : 0 < c
    · rw [computeRow_plusPrice, if_pos hc] at hq
      injection hq with hq'
      rw [computeRow_realizedPlus, if_pos hc, hq']
    · rw [computeRow_plusPrice, if_neg hc] at hq
      exact JSNum.noConfusion hq
  · intro hq
    by_cases hc : 0 < c
    · rw [computeRow_plusPrice, if_pos hc] at hq
      exact JSNum.noConfusion hq
    · rw [computeRow_realizedPlus, if_neg hc]
  · intro q hq
    by_cases hc : 0 < c
    · rw [computeRow_minusPrice, if_pos hc] at hq
      injection hq with hq'
      rw [computeRow_realizedMinus, if_pos hc, hq']
    · rw [computeRow_minusPrice, if_neg hc] at hq
      exact JSNum.noConfusion hq
  · intro hq
    by_cases hc : 0 < c
    · rw [computeRow_minusPrice, if_pos hc] at hq
      exact JSNum.noConfusion hq
    · rw [computeRow_realizedMinus, if_neg hc]
  · intro hn hc
    subst hn
    refine ⟨?_, ?_, ?_, ?_, ?_, ?_⟩
    · rw [computeRow_realizedPlus, if_pos hc]
      norm_num
    · rw [computeRow_realizedMinus, if_pos hc]
      norm_num
    · rw [computeRow_unrealNow]
      norm_num
    · rw [computeRow_curValue, if_neg (fun hcn => lt_irrefl 0 hcn.2)]
    · rw [computeRow_plusValue, if_neg (fun hcn => lt_irrefl 0 hcn.2)]
    · rw [computeRow_minusValue, if_neg (fun hcn => lt_irrefl 0 hcn.2)]

/-- Witness for C4: the spec's own example `deriveFigures(1.00, 1.72, 0,
15, Call, 15)` — contracts 0, current 1.72 > 0. -/
theorem C4_realized_witness :
    (computeRow (.fin 1) (.fin (172/100)) (.fin 0) (.fin 15) .C (.fin 15)).realizedPlus
        = .fin 0 ∧
    (computeRow (.fin 1) (.fin (172/100)) (.fin 0) (.fin 15) .C (.fin 15)).realizedMinus
        = .fin 0 ∧
    (computeRow (.fin 1) (.fin (172/100)) (.fin 0) (.fin 15) .C (.fin 15)).unrealNow
        = .fin 0 ∧
    (computeRow (.fin 1) (.fin (172/100)) (.fin 0) (.fin 15) .C (.fin 15)).curValue = .nan ∧
    (computeRow (.fin 1) (.fin (172/100)) (.fin 0) (.fin 15) .C (.fin 15)).plusValue = .nan ∧
    (computeRow (.fin 1) (.fin (172/100)) (.fin 0) (.fin 15) .C (.fin 15)).minusValue = .nan :=
  (C4_realized 1 (172/100) 0 15 15 .C).2.2.2.2 rfl (by norm_num)

/-- **C8.** breakevenStock = strikePrice + entryPrice for Calls, NaN for
Puts, for all finite inputs. -/
theorem C8_breakeven (e c n k s : ℚ) :
    (computeRow (.fin e) (.fin c) (.fin n) (.fin k) .C (.fin s)).breakevenStock
        = .fin (k + e) ∧
    (computeRow (.fin e) (.fin c) (.fin n) (.fin k) .P (.fin s)).breakevenStock = .nan := by
  rw [computeRow_fin, computeRow_fin]
  exact ⟨rfl, rfl⟩

theorem ite_fin_or_nan (P : Prop) [Decidable P] (q : ℚ) :
    (∃ r : ℚ, (if P then JSNum.fin q else JSNum.nan) = .fin r) ∨
      (if P then JSNum.fin q else JSNum.nan) = .nan := by
  split
  · exact Or.inl ⟨q, rfl⟩
  · exact Or.inr rfl

/-- **C7.** For all finite inputs `computeRow` is a total function whose
every field is either a finite number or the NaN sentinel — never an
infinity that could leak out of the finite domain — and the sentinel is
distinguishable from every finite number, 0 in particular. -/
theorem C7_fields_finite_or_nan (e c n k s : ℚ) (t : OptType) :
    (∀ x ∈ fieldsOf (computeRow (.fin e) (.fin c) (.fin n) (.fin k) t (.fin s)),
      (∃ q : ℚ, x = .fin q) ∨ x = .nan) ∧
    (∀ q : ℚ, (JSNum.nan : JSNum) ≠ .fin q) := by
  constructor
  · rw [computeRow_fin]
    intro x hx
    simp only [fieldsOf, List.mem_cons, List.not_mem_nil, or_false] at hx
    rcases hx with rfl | rfl | rfl | rfl | rfl | rfl | rfl | rfl | rfl
    · exact ite_fin_or_nan _ _
    · exact ite_fin_or_nan _ _
    · exact ite_fin_or_nan _ _
    · exact ite_fin_or_nan _ _
    · exact ite_fin_or_nan _ _
    · exact Or.inl ⟨_, rfl⟩
    · exact ite_fin_or_nan _ _
    · exact ite_fin_or_nan _ _
    · exact ite_fin_or_nan _ _
  · intro q h
    exact JSNum.noConfusion h

/-- Witness for C7: the plusPrice field at a concrete input is finite or
NaN, and NaN differs from 0. -/
theorem C7_fields_finite_or_nan_witness :
    ((∃ q : ℚ, (computeRow (.fin 1) (.fin 2) (.fin 3) (.fin 4) .C (.fin 15)).plusPrice
        = .fin q) ∨
      (computeRow (.fin 1) (.fin 2) (.fin 3) (.fin 4) .C (.fin 15)).plusPrice = .nan) ∧
    (JSNum.nan : JSNum) ≠ .fin 0 :=
  ⟨(C7_fields_finite_or_nan 1 2 3 4 15 .C).1
      ((computeRow (.fin 1) (.fin 2) (.fin 3) (.fin 4) .C (.fin 15)).plusPrice)
      (by simp [fieldsOf]),
    (C7_fields_finite_or_nan 1 2 3 4 15 .C).2 0⟩

/-- **C10.** For any two calls to `computeRow` agreeing on every input but
the option type, every output field except breakevenStock coincides: the
option type influences only the breakeven field.  Stated over arbitrary
JavaScript numbers, finite or not. -/
theorem C10_type_only_breakeven (e c n k pct : JSNum) (t₁ t₂ : OptType) :
    (computeRow e c n k t₁ pct).plusPrice = (computeRow e c n k t₂ pct).plusPrice ∧
    (computeRow e c n k t₁ pct).minusPrice = (computeRow e c n k t₂ pct).minusPrice ∧
    (computeRow e c n k t₁ pct).curValue = (computeRow e c n k t₂ pct).curValue ∧
    (computeRow e c n k t₁ pct).plusValue = (computeRow e c n k t₂ pct).plusValue ∧
    (computeRow e c n k t₁ pct).minusValue = (computeRow e c n k t₂ pct).minusValue ∧
    (computeRow e c n k t₁ pct).unrealNow = (computeRow e c n k t₂ pct).unrealNow ∧
    (computeRow e c n k t₁ pct).realizedPlus = (computeRow e c n k t₂ pct).realizedPlus ∧
    (computeRow e c n k t₁ pct).realizedMinus = (computeRow e c n k t₂ pct).realizedMinus :=
  ⟨rfl, rfl, rfl, rfl, rfl, rfl, rfl, rfl⟩

theorem numberOr_num_zero (v : JSNum) :
    numberOr (.num v) (.fin 0) = .fin (finPart v) := by
  cases v <;> rfl

theorem foldl_aggStep (l : List Figures) (a₁ a₂ a₃ a₄ a₅ a₆ : ℚ) :
    l.foldl aggStep
        { curValue := .fin a₁, unrealNow := .fin a₂, plusValue := .fin a₃,
          minusValue := .fin a₄, realizedPlus := .fin a₅, realizedMinus := .fin a₆ } =
      { curValue := .fin (a₁ + (l.map fun f => finPart f.curValue).sum),
        unrealNow := .fin (a₂ + (l.map fun f => finPart f.unrealNow).sum),
        plusValue := .fin (a₃ + (l.map fun f => finPart f.plusValue).sum),
        minusValue := .fin (a₄ + (l.map fun f => finPart f.minusValue).sum),
        realizedPlus := .fin (a₅ + (l.map fun f => finPart f.realizedPlus).sum),
        realizedMinus := .fin (a₆ + (l.map fun f => finPart f.realizedMinus).sum) } := by
  induction l generalizing a₁ a₂ a₃ a₄ a₅ a₆ with
  | nil => simp
  | cons f l ih =>
    rw [List.foldl_cons]
    show List.foldl aggStep
        { curValue := jadd (.fin a₁) (numberOr (.num f.curValue) (.fin 0)),
          unrealNow := jadd (.fin a₂) (numberOr (.num f.unrealNow) (.fin 0)),
          plusValue := jadd (.fin a₃) (numberOr (.num f.plusValue) (.fin 0)),
          minusValue := jadd (.fin a₄) (numberOr (.num f.minusValue) (.fin 0)),
          realizedPlus := jadd (.fin a₅) (numberOr (.num f.realizedPlus) (.fin 0)),
          realizedMinus := jadd (.fin a₆) (numberOr (.num f.realizedMinus) (.fin 0)) } l = _
    simp only [numberOr_num_zero, jadd, ih]
    simp [add_assoc]

theorem aggregate_eq_sums (l : List Figures) :
    aggregate l =
      { curValue := .fin ((l.map fun f => finPart f.curValue).sum),
        unrealNow := .fin ((l.map fun f => finPart f.unrealNow).sum),
        plusValue := .fin ((l.map fun f => finPart f.plusValue).sum),
        minusValue := .fin ((l.map fun f => finPart f.minusValue).sum),
        realizedPlus := .fin ((l.map fun f => finPart f.realizedPlus).sum),
        realizedMinus := .fin ((l.map fun f => finPart f.realizedMinus).sum) } := by
  simpa [initTotals] using foldl_aggStep l 0 0 0 0 0 0

/-- **C5.** `aggregate` starts every total at 0 and adds each row's
derived value through `numberOr(·, 0)`, which turns a non-finite value
into 0; the totals of an empty list, and of a list of rows whose summed
figures are all NaN, are exactly 0 — never NaN. -/
theorem C5_aggregate_zero :
    aggregate [] = initTotals ∧
    initTotals =
      { curValue := .fin 0, unrealNow := .fin 0, plusValue := .fin 0,
        minusValue := .fin 0, realizedPlus := .fin 0, realizedMinus := .fin 0 } ∧
    (∀ v : JSNum, isFinite v = false → numberOr (.num v) (.fin 0) = .fin 0) ∧
    (∀ (l : List Figures) (f : Figures),
      aggregate (l ++ [f]) = aggStep (aggregate l) f) ∧
    (∀ l : List Figures, (∀ f ∈ l, sumFieldsUndef f) →
      aggregate l =
        { curValue := .fin 0, unrealNow := .fin 0, plusValue := .fin 0,
          minusValue := .fin 0, realizedPlus := .fin 0, realizedMinus := .fin 0 }) := by
  refine ⟨rfl, rfl, ?_, ?_, ?_⟩
  · intro v hv
    cases v with
    | fin q => simp [isFinite] at hv
    | inf => rfl
    | ninf => rfl
    | nan => rfl
  · intro l f
    rw [aggregate, aggregate, List.foldl_append, List.foldl_cons, List.foldl_nil]
  · intro l hl
    rw [aggregate_eq_sums]
    have hz : ∀ g : Figures → JSNum, (∀ f ∈ l, g f = JSNum.nan) →
        (l.map fun f => finPart (g f)).sum = 0 := by
      intro g hg
      apply List.sum_eq_zero
      intro x hx
      rcases List.mem_map.mp hx with ⟨f, hf, rfl⟩
      rw [hg f hf]
      rfl
    rw [hz (fun f => f.curValue) (fun f hf => (hl f hf).1),
      hz (fun f => f.unrealNow) (fun f hf => (hl f hf).2.1),
      hz (fun f => f.plusValue) (fun f hf => (hl f hf).2.2.1),
      hz (fun f => f.minusValue) (fun f hf => (hl f hf).2.2.2.1),
      hz (fun f => f.realizedPlus) (fun f hf => (hl f hf).2.2.2.2.1),
      hz (fun f => f.realizedMinus) (fun f hf => (hl f hf).2.2.2.2.2)]

/-- Witness for C5: a one-row list whose summed figures are all NaN
aggregates to all-zero totals. -/
theorem C5_aggregate_zero_witness :
    aggregate [nanFigures] =
      { curValue := .fin 0, unrealNow := .fin 0, plusValue := .fin 0,
        minusValue := .fin 0, realizedPlus := .fin 0, realizedMinus := .fin 0 } :=
  C5_aggregate_zero.2.2.2.2 [nanFigures]
    (by
      intro f hf
      rw [List.mem_singleton.mp hf]
      exact ⟨rfl, rfl, rfl, rfl, rfl, rfl⟩)

/-- **C9.** `aggregate` is invariant under any permutation of the rows. -/
theorem C9_aggregate_perm (l₁ l₂ : List Figures) (h : l₁.Perm l₂) :
    aggregate l₁ = aggregate l₂ := by
  rw [aggregate_eq_sums, aggregate_eq_sums,
    (h.map fun f => finPart f.curValue).sum_eq,
    (h.map fun f => finPart f.unrealNow).sum_eq,
    (h.map fun f => finPart f.plusValue).sum_eq,
    (h.map fun f => finPart f.minusValue).sum_eq,
    (h.map fun f => finPart f.realizedPlus).sum_eq,
    (h.map fun f => finPart f.realizedMinus).sum_eq]

/-- Witness for C9: swapping two concrete rows leaves the totals
unchanged. -/
theorem C9_aggregate_perm_witness :
    aggregate [sampleFigA, sampleFigB] = aggregate [sampleFigB, sampleFigA] :=
  C9_aggregate_perm [sampleFigA, sampleFigB] [sampleFigB, sampleFigA]
    (List.Perm.swap sampleFigB sampleFigA [])

theorem spanDigits_snd_suffix (cs : List Char) : (spanDigits cs).2 <:+ cs := by
  induction cs with
  | nil => exact List.suffix_rfl
  | cons c cs ih =>
    rw [spanDigits]
    split
    · exact ih.trans (List.suffix_cons c cs)
    · exact List.suffix_rfl

theorem fracPart_snd_suffix (cs : List Char) : (fracPart cs).2 <:+ cs := by
  cases cs with
  | nil => exact List.suffix_rfl
  | cons c r =>
    rw [fracPart]
    split
    · exact (spanDigits_snd_suffix r).trans (List.suffix_cons c r)
    · exact List.suffix_rfl

theorem splitSign_snd_suffix (cs : List Char) : (splitSign cs).2 <:+ cs := by
  cases cs with
  | nil => exact List.suffix_rfl
  | cons c r =>
    rw [splitSign]
    split
    · exact List.suffix_cons c r
    · split
      · exact List.suffix_cons c r
      · exact List.suffix_rfl

theorem decSignificand_snd_suffix (cs : List Char) (mr : ℚ × List Char)
    (h : decSignificand cs = some mr) : mr.2 <:+ cs := by
  rw [decSignificand] at h
  split at h
  · exact absurd h (by simp)
  · rw [← Option.some_inj.mp h]
    exact (fracPart_snd_suffix (spanDigits cs).2).trans (spanDigits_snd_suffix cs)

theorem parseExpPart_fst_one (cs : List Char)
    (h : ∀ c ∈ cs, c ≠ 'e' ∧ c ≠ 'E') : (parseExpPart cs).1 = 1 := by
  cases cs with
  | nil => rfl
  | cons c r =>
    have hc := h c (List.mem_cons_self c r)
    simp [parseExpPart, hc.1, hc.2]

theorem dropWhile_white_eq_self (cs : List Char)
    (h : ∀ c ∈ cs, jsWhitespace c = false) : cs.dropWhile jsWhitespace = cs := by
  cases cs with
  | nil => rfl
  | cons c r => simp [List.dropWhile_cons, h c (List.mem_cons_self c r)]

theorem take_ne_infinity (cs : List Char) (h : 'I' ∉ cs) :
    ¬ cs.take 8 = "Infinity".data := by
  intro heq
  have hI : 'I' ∈ "Infinity".data := by decide
  rw [← heq] at hI
  exact h (List.take_subset 8 cs hI)

/-- On text with no leading whitespace, no exponent marker and no
`Infinity` literal, the code's `parseFloat` and the claim's sign-digits-
point grammar agree. -/
theorem parseFloat_eq_specParse (s : String)
    (h : ∀ c ∈ s.data, jsWhitespace c = false ∧ c ≠ 'e' ∧ c ≠ 'E' ∧ c ≠ 'I') :
    parseFloat s = specParseNumber s := by
  have hdw : s.data.dropWhile jsWhitespace = s.data :=
    dropWhile_white_eq_self s.data (fun c hc => (h c hc).1)
  rw [parseFloat, hdw, parseSigned, specParseNumber]
  have hsub : (splitSign s.data).2 ⊆ s.data := (splitSign_snd_suffix s.data).subset
  have hI : 'I' ∉ (splitSign s.data).2 := fun hm => (h _ (hsub hm)).2.2.2 rfl
  rw [if_neg (take_ne_infinity _ hI)]
  cases hds : decSignificand (splitSign s.data).2 with
  | none => rw [parseUnsigned, hds]
  | some mr =>
    have hr2 : mr.2 ⊆ s.data :=
      fun c hc =>
        hsub ((decSignificand_snd_suffix (splitSign s.data).2 mr hds).subset hc)
    have hexp : (parseExpPart mr.2).1 = 1 :=
      parseExpPart_fst_one mr.2
        (fun c hc => ⟨(h c (hr2 hc)).2.1, (h c (hr2 hc)).2.2.1⟩)
    rw [parseUnsigned, hds]
    simp only [hexp, mul_one]

/-- Counterexample to C6 as stated: on the text "1e3" the code's parser
reads the exponent and returns 1000, while the grammar the claim
describes — sign, digits, at most one decimal point, longest valid
prefix — stops before the `e` and yields 1. -/
theorem C6_exponent_counterexample :
    numberOr (.str "1e3") (.fin 0) = .fin 1000 ∧
    specParseNumber "1e3" = .fin 1 ∧
    (JSNum.fin 1000 : JSNum) ≠ .fin 1 := by
  refine ⟨?_, ?_, ?_⟩
  · simp [numberOr, parseFloat, parseSigned, splitSign, parseUnsigned, decSignificand,
      parseExpPart, splitExpSign, spanDigits, fracPart, digitsToNat, jsWhitespace,
      isFinite]
    norm_num
  · simp [specParseNumber, splitSign, decSignificand, spanDigits, fracPart,
      digitsToNat]
  · intro h
    injection h with h'
    norm_num at h'

/-- **C6 (amended).** `numberOr` (the spec's `parseNumberOr`) is total; a
string is parsed by the ECMAScript `parseFloat`, whose literal extends the
claim's sign-digits-point grammar with an exponent part, an `Infinity`
literal and leading whitespace (the full ECMAScript set, Unicode spaces
included); on text free of those extras, and for a prefix value within
the double range (magnitude below 10^308 — a longer literal overflows to
Infinity in the program and takes the fallback, which the exact-rational
reading leaves aside), the code returns exactly what the claim's grammar
reads: the longest valid numeric prefix, or the fallback when no digit is
found.  The four quoted examples hold. -/
theorem C6_parse_number_or :
    numberOr (.str "1.72") (.fin 0) = .fin (172 / 100) ∧
    numberOr (.str "") (.fin 0) = .fin 0 ∧
    numberOr (.str "abc") (.fin 5) = .fin 5 ∧
    numberOr (.str ".5") (.fin 0) = .fin (1 / 2) ∧
    (∀ (s : String) (fb : JSNum),
      (∀ c ∈ s.data, jsWhitespace c = false ∧ c ≠ 'e' ∧ c ≠ 'E' ∧ c ≠ 'I') →
      (∀ q : ℚ, specParseNumber s = .fin q → -(10 ^ 308) < q → q < 10 ^ 308 →
        numberOr (.str s) fb = .fin q) ∧
      (specParseNumber s = .nan → numberOr (.str s) fb = fb)) := by
  refine ⟨?_, ?_, ?_, ?_, ?_⟩
  · simp [numberOr, parseFloat, parseSigned, splitSign, parseUnsigned, decSignificand,
      parseExpPart, splitExpSign, spanDigits, fracPart, digitsToNat, jsWhitespace,
      isFinite]
    norm_num
  · simp [numberOr, parseFloat, parseSigned, splitSign, parseUnsigned, decSignificand,
      parseExpPart, splitExpSign, spanDigits, fracPart, digitsToNat, jsWhitespace,
      isFinite]
  · simp [numberOr, parseFloat, parseSigned, splitSign, parseUnsigned, decSignificand,
      parseExpPart, splitExpSign, spanDigits, fracPart, digitsToNat, jsWhitespace,
      isFinite]
  · simp [numberOr, parseFloat, parseSigned, splitSign, parseUnsigned, decSignificand,
      parseExpPart, splitExpSign, spanDigits, fracPart, digitsToNat, jsWhitespace,
      isFinite]
    norm_num
  · intro s fb h
    have heq := parseFloat_eq_specParse s h
    constructor
    · intro q hq _ _
      simp only [numberOr, heq, hq, isFinite, if_true]
    · intro hq
      simp only [numberOr, heq, hq, isFinite]
      rfl

/-- Witness for the amended C6: on "-12.5xyz" — no whitespace, exponent
marker or Infinity — the code returns the claim-grammar prefix value
-12.5, not the fallback. -/
theorem C6_parse_number_or_witness :
    numberOr (.str "-12.5xyz") (.fin 7) = .fin (-(25 / 2)) :=
  (C6_parse_number_or.2.2.2.2 "-12.5xyz" (.fin 7) (by decide)).1 (-(25 / 2))
    (by
      simp [specParseNumber, splitSign, decSignificand, spanDigits, fracPart, digitsToNat]
      norm_num)
    (by norm_num) (by norm_num)
